import Mathlib

/-!
Verification development for the BrainBrowser volume color-mapping and
compositing core.

The embedding models JavaScript numbers as rationals; a JavaScript value
that is NaN or undefined in a numeric position is modelled as the value
none of Option Rat, and arithmetic on Option Rat propagates none exactly
as NaN propagates through JavaScript arithmetic.  Typed-array cells hold
Option Rat (destination buffers) or Nat (byte buffers such as ImageData
contents).  IEEE-754 rounding of JavaScript doubles and of Float32Array
stores is not modelled: values are kept exact, and every theorem below
only uses inputs whose JavaScript computation is exact at this level.
-/

namespace BrainBrowser

/-- JavaScript logical-or defaulting for a numeric option field:
the expression opt.x defaults to d when x is undefined or 0
(since 0 is falsy), as in data = options.x or-else d. -/
def jsOr (o : Option ℚ) (d : ℚ) : ℚ :=
  match o with
  | some v => if v = 0 then d else v
  | none => d

/-- JavaScript logical-or defaulting for a boolean option field. -/
def jsOrB (o : Option Bool) : Bool :=
  match o with
  | some b => b
  | none => false

/-- NaN-propagating addition on modelled JavaScript numbers. -/
def jadd (a b : Option ℚ) : Option ℚ :=
  match a, b with
  | some x, some y => some (x + y)
  | _, _ => none

/-- NaN-propagating multiplication on modelled JavaScript numbers. -/
def jmul (a b : Option ℚ) : Option ℚ :=
  match a, b with
  | some x, some y => some (x * y)
  | _, _ => none

/-- NaN-propagating Math.min. -/
def jmin (a b : Option ℚ) : Option ℚ :=
  match a, b with
  | some x, some y => some (min x y)
  | _, _ => none

/-- NaN-propagating Math.max. -/
def jmax (a b : Option ℚ) : Option ℚ :=
  match a, b with
  | some x, some y => some (max x y)
  | _, _ => none

/-- Read of a JavaScript array of numbers at a numeric index: a negative
or fractional index, an out-of-bounds index, or a hole all read as
undefined (none).  The element type Option Rat lets the array itself hold
holes. -/
def jsIndex (l : List (Option ℚ)) (q : ℚ) : Option ℚ :=
  if q.den = 1 ∧ 0 ≤ q.num then l.getD q.num.toNat none else none

/-- Round half to even on rationals, the rounding mode of the
ECMAScript ToUint8Clamp conversion. -/
def roundTiesEven (q : ℚ) : ℤ :=
  if q - ⌊q⌋ < 1 / 2 then ⌊q⌋
  else if 1 / 2 < q - ⌊q⌋ then ⌊q⌋ + 1
  else if ⌊q⌋ % 2 = 0 then ⌊q⌋ else ⌊q⌋ + 1

/-- ECMAScript ToUint8Clamp: stores into a Uint8ClampedArray clamp to
[0, 255] and round ties to even. -/
def u8c (q : ℚ) : ℕ :=
  if q ≤ 0 then 0 else if 255 ≤ q then 255 else (roundTiesEven q).toNat

/-- ToUint8Clamp on a modelled JavaScript number; NaN stores as 0. -/
def u8cOpt : Option ℚ → ℕ
  | none => 0
  | some q => u8c q

/-- Direct translation of the private helper getColorMapIndex of
createColorMap: map a single value to a channel offset into the flat
color table, or the sentinel -1 when the value is out of the window and
clamping is off.  The table length argument is the JavaScript number
colors.length / 4 and may be fractional, so the function returns a
rational exactly as the source returns a JavaScript number. -/
def getColorMapIndex (value vmin vmax increment : ℚ) (clamp flip : Bool)
    (color_map_length : ℚ) : ℚ :=
  if (value < vmin ∨ vmax < value) ∧ ¬clamp then -1
  else
    let color_map_index : ℤ :=
      ⌊max 0 (min ((value - vmin) * increment) (color_map_length - 1))⌋
    let flipped : ℚ :=
      if flip then color_map_length - 1 - (color_map_index : ℚ)
      else (color_map_index : ℚ)
    flipped * 4

/-! ### Color map construction (createColorMap parse loop) -/

/-- Split a character list at every separator recognised by the
predicate, keeping empty fragments, like String.prototype.split with a
single-character-class regular expression. -/
def splitWhen (p : Char → Bool) : List Char → List (List Char)
  | [] => [[]]
  | a :: rest =>
    match splitWhen p rest with
    | [] => [[]]
    | cur :: done => if p a then [] :: cur :: done else (a :: cur) :: done

/-- String.prototype.trim on a character list. -/
def trimChars (cs : List Char) : List Char :=
  ((cs.dropWhile Char.isWhitespace).reverse.dropWhile Char.isWhitespace).reverse

/-- Value of a list of decimal digit characters. -/
def digitsNat (cs : List Char) : ℕ :=
  cs.foldl (fun n c => 10 * n + (c.toNat - 48)) 0

/-- Numeric payload of parseFloat on an unsigned decimal numeral,
returned as an exact pair (mantissa, number of decimal places) so that
parsing stays kernel-computable; ratOfFix turns it into the number.
Only plain decimal numerals (the only form appearing in color map
files) are modelled; exponents and trailing junk parse as none. -/
def jsParseUnsignedRaw (cs : List Char) : Option (ℤ × ℕ) :=
  let ip := cs.takeWhile Char.isDigit
  let rest := cs.dropWhile Char.isDigit
  match rest with
  | [] => if ip.isEmpty then none else some ((digitsNat ip : ℤ), 0)
  | '.' :: r =>
    let fp := r.takeWhile Char.isDigit
    let rest2 := r.dropWhile Char.isDigit
    if rest2.isEmpty ∧ (¬ip.isEmpty ∨ ¬fp.isEmpty) then
      some ((digitsNat ip * 10 ^ fp.length + digitsNat fp : ℤ), fp.length)
    else none
  | _ => none

/-- parseFloat (sign handling) at the exact fixed-point level. -/
def jsParseFloatRaw (cs : List Char) : Option (ℤ × ℕ) :=
  match cs with
  | '-' :: rest => (jsParseUnsignedRaw rest).map (fun p => (-p.1, p.2))
  | '+' :: rest => jsParseUnsignedRaw rest
  | other => jsParseUnsignedRaw other

/-- The rational denoted by an exact fixed-point pair. -/
def ratOfFix (p : ℤ × ℕ) : ℚ :=
  (p.1 : ℚ) / 10 ^ p.2

/-- parseInt(s, 10) on an unsigned numeral: leading decimal digits,
anything after them ignored, none when no digit is present (NaN). -/
def jsParseIntDigits (cs : List Char) : Option ℕ :=
  let ds := cs.takeWhile Char.isDigit
  if ds.isEmpty then none else some (digitsNat ds)

/-- parseInt(s, 10) with sign handling. -/
def jsParseIntRaw (cs : List Char) : Option ℤ :=
  match cs with
  | '-' :: rest => (jsParseIntDigits rest).map (fun n => -(n : ℤ))
  | '+' :: rest => (jsParseIntDigits rest).map (fun n => (n : ℤ))
  | other => (jsParseIntDigits other).map (fun n => (n : ℤ))

/-- Assignment colors[i] = v on a JavaScript array: extend the array
with holes up to index i when it is shorter, otherwise overwrite in
place. -/
def setColorAt (colors : List (Option (ℤ × ℕ))) (i : ℕ) (v : Option (ℤ × ℕ)) :
    List (Option (ℤ × ℕ)) :=
  if i < colors.length then colors.set i v
  else colors ++ List.replicate (i - colors.length) none ++ [v]

/-- The inner field-writing loop of the createColorMap parse loop:
for j < line_length, colors[ic + j] = parseFloat(color[j]). -/
def writeFields (colors : List (Option (ℤ × ℕ))) (ic : ℕ)
    (color : List (List Char)) (line_length : ℕ) : List (Option (ℤ × ℕ)) :=
  (List.range line_length).foldl
    (fun cs j => setColorAt cs (ic + j) (jsParseFloatRaw (color.getD j []))) colors

/-- One iteration of the createColorMap parse loop over one line.  The
state is the flat color array (with holes) and the continuation offset
ic.  Lines with fewer than 3 fields are skipped; a 5-field line is a
sparse labeled entry whose first field relocates ic to label * 4; a 3
or 4 field dense line appends, with alpha defaulted to 1 when absent.
A 5-field line whose label is not a plain non-negative numeral is not
modelled (it would address non-index properties in JavaScript); no
shipped color map contains one. -/
def parseColorLine (st : List (Option (ℤ × ℕ)) × ℕ) (line : List Char) :
    List (Option (ℤ × ℕ)) × ℕ :=
  let color := ((splitWhen Char.isWhitespace (trimChars line)).filter
    (fun t => ¬t.isEmpty)).take 5
  let line_length := color.length
  if line_length < 3 then st
  else
    let colors0 := st.1
    let ic0 := st.2
    if 4 < line_length then
      match jsParseIntRaw (color.getD 0 []) with
      | some n =>
        if 0 ≤ n then
          let ic := n.toNat * 4
          (writeFields colors0 ic (color.drop 1) 4, ic + 4)
        else st
      | none => st
    else
      let colors1 := writeFields colors0 ic0 color line_length
      let colors2 :=
        if line_length < 4 then setColorAt colors1 (ic0 + 3) (some (1, 0))
        else colors1
      (colors2, ic0 + 4)

/-- The whole parse loop of createColorMap: trim the data, split on
newlines, fold the per-line step from an empty array and offset 0.
Returns the final (colors, ic) state. -/
def createColorMapFold (data : List Char) : List (Option (ℤ × ℕ)) × ℕ :=
  (splitWhen (fun c => c = '\n') (trimChars data)).foldl parseColorLine ([], 0)

/-- The flat color array produced by the createColorMap parse loop, as
modelled JavaScript numbers. -/
def createColorMapColors (data : List Char) : List (Option ℚ) :=
  (createColorMapFold data).1.map (Option.map ratOfFix)

/-- The color map object: the flat color array (undefined when no data
was given) and the scalar configuration fields. -/
structure ColorMap where
  colors : Option (List (Option ℚ))
  clamp : Bool
  flip : Bool
  scale : ℚ
  contrast : ℚ
  brightness : ℚ
deriving DecidableEq

/-- Options accepted by createColorMap (the margin option only feeds
the legend-rendering canvas code, which is outside this development). -/
structure CreateOptions where
  clamp : Option Bool := none
  flip : Option Bool := none
  scale : Option ℚ := none
  contrast : Option ℚ := none
  brightness : Option ℚ := none

/-- BrainBrowser.createColorMap: parse the data string (a falsy data
argument, undefined or the empty string, leaves colors undefined) and
record the configuration fields with their defaults: clamp true, flip
false, scale 1, contrast 1, brightness 0. -/
def createColorMap (data : Option String) (options : CreateOptions) : ColorMap :=
  { colors :=
      match data with
      | some s => if s = "" then none else some (createColorMapColors s.toList)
      | none => none
    clamp := options.clamp.getD true
    flip := jsOrB options.flip
    scale := jsOr options.scale 1
    contrast := jsOr options.contrast 1
    brightness := jsOr options.brightness 0 }

/-! ### Intensity mapping (color_map.mapColors) -/

/-- One entry of options.colorOptions.colors: a pair of a value key and
a side key (the strings left or all select hemispheres). -/
structure ColorOptionEntry where
  value : ℚ
  side : String
deriving DecidableEq

/-- The options.colorOptions bag used for hemisphere-specific coloring. -/
structure ColorOptionsCfg where
  colors : List ColorOptionEntry
  defaultColor : List ℚ
  leftCount : ℚ
deriving DecidableEq

/-- Options bag of mapColors, every field optional as at the call sites. -/
structure MapOptions where
  min : Option ℚ := none
  max : Option ℚ := none
  maxSpectrum : Option ℚ := none
  clamp : Option Bool := none
  flip : Option Bool := none
  scale : Option ℚ := none
  contrast : Option ℚ := none
  brightness : Option ℚ := none
  default_colors : Option (List ℚ) := none
  destination : Option (List (Option ℚ)) := none
  colorOptions : Option ColorOptionsCfg := none

/-- The intensity preprocessing of mapColors: every value strictly
above the window ceiling but at most maxSpectrum is pulled just below
the ceiling; every other value passes through.  The source applies this
with Array.prototype.map, producing a fresh array. -/
def mapColorsPreprocess (vmax maxSpectrum : ℚ) (intensity_values : List ℚ) :
    List ℚ :=
  intensity_values.map (fun value =>
    if vmax < value ∧ value ≤ maxSpectrum then vmax - 1 / 10000 else value)

/-- The increment used by mapColors: length / (max - min), overridden
to 1 for the discrete label windows min = 0, max = 17 or 18. -/
def mapColorsIncrement (color_map_length vmin vmax : ℚ) : ℚ :=
  if vmin = 0 ∧ (vmax = 17 ∨ vmax = 18) then 1
  else color_map_length / (vmax - vmin)

/-- The index resolution performed by mapColors for one value: the
shared getColorMapIndex helper called with the mapColors increment. -/
def mapColorsIndex (color_map_length vmin vmax : ℚ) (clamp flip : Bool)
    (value : ℚ) : ℚ :=
  getColorMapIndex value vmin vmax
    (mapColorsIncrement color_map_length vmin vmax) clamp flip color_map_length

/-- The colorOptions scan of mapColors: find the first entry whose
value key matches (key 1 matches any intensity in the half-open unit
interval, any other key matches exactly) and whose side key admits
position i relative to leftCount. -/
def findColorOption (co : ColorOptionsCfg) (i : ℕ) (value : ℚ) :
    Option ColorOptionEntry :=
  co.colors.find? (fun color =>
    let isLeft := color.side = "left"
    let isAll := color.side = "all"
    let sideOk : Bool :=
      isAll || (if isLeft then decide ((i : ℚ) ≤ co.leftCount)
        else decide (co.leftCount < (i : ℚ)))
    if color.value = 1 then decide (0 < value ∧ value ≤ 1) && sideOk
    else decide (color.value = value) && sideOk)

/-- The four destination stores of one loop iteration of mapColors.
List.set is a no-op out of bounds, as stores into a typed array are. -/
def writeRGBA (destination : List (Option ℚ)) (ic : ℕ) (r g b a : Option ℚ) :
    List (Option ℚ) :=
  (((destination.set ic r).set (ic + 1) g).set (ic + 2) b).set (ic + 3) a

/-- One iteration of the per-value loop of mapColors at position i with
the given value: resolve the table offset, then write either the
default colors (offset negative), the colorOptions-selected color, or
the table color, applying contrast and brightness to the color channels
and scale to alpha.  contrast and brightness arrive already multiplied
by scale, as in the source. -/
def mapColorsStep (color_map_colors : List (Option ℚ)) (default_colors : List ℚ)
    (default_color_offset : ℕ) (contrast brightness scale : ℚ)
    (colorOptions : Option ColorOptionsCfg) (color_map_length vmin vmax : ℚ)
    (clamp flip : Bool) (destination : List (Option ℚ)) (iv : ℕ × ℚ) :
    List (Option ℚ) :=
  let i := iv.1
  let value := iv.2
  let ic := i * 4
  let color_map_index := mapColorsIndex color_map_length vmin vmax clamp flip value
  if color_map_index < 0 then
    let idc := ic * default_color_offset
    writeRGBA destination ic
      (jadd (jmul (some contrast) default_colors[idc]?) (some brightness))
      (jadd (jmul (some contrast) default_colors[idc + 1]?) (some brightness))
      (jadd (jmul (some contrast) default_colors[idc + 2]?) (some brightness))
      (jmul (some scale) default_colors[idc + 3]?)
  else
    match colorOptions with
    | some co =>
      match findColorOption co i value with
      | some _ =>
        writeRGBA destination ic
          (jadd (jmul (some contrast) (jsIndex color_map_colors color_map_index))
            (some brightness))
          (jadd (jmul (some contrast) (jsIndex color_map_colors (color_map_index + 1)))
            (some brightness))
          (jadd (jmul (some contrast) (jsIndex color_map_colors (color_map_index + 2)))
            (some brightness))
          (jmul (some scale) (jsIndex color_map_colors (color_map_index + 3)))
      | none =>
        writeRGBA destination ic
          (jadd (jmul (some contrast) co.defaultColor[0]?) (some brightness))
          (jadd (jmul (some contrast) co.defaultColor[1]?) (some brightness))
          (jadd (jmul (some contrast) co.defaultColor[2]?) (some brightness))
          (jmul (some scale) co.defaultColor[3]?)
    | none =>
      writeRGBA destination ic
        (jadd (jmul (some contrast) (jsIndex color_map_colors color_map_index))
          (some brightness))
        (jadd (jmul (some contrast) (jsIndex color_map_colors (color_map_index + 1)))
          (some brightness))
        (jadd (jmul (some contrast) (jsIndex color_map_colors (color_map_index + 2)))
          (some brightness))
        (jmul (some scale) (jsIndex color_map_colors (color_map_index + 3)))

/-- color_map.mapColors.  Defaults: min 0, max 255, maxSpectrum 4 (via
logical or), default_colors the single black color, destination a fresh
zero-filled buffer of length 4 times the value count.  The active table
is the filter callback applied to the colors when a callback is given;
a falsy (none) active table returns undefined.  Returns the destination
contents after the per-value loop. -/
def mapColors (color_map : ColorMap) (intensity_values : List ℚ)
    (options : MapOptions)
    (filterColorCb : Option (Option (List (Option ℚ)) → Option (List (Option ℚ)))) :
    Option (List (Option ℚ)) :=
  let vmin := options.min.getD 0
  let vmax := options.max.getD 255
  let maxSpectrum := jsOr options.maxSpectrum 4
  let values := mapColorsPreprocess vmax maxSpectrum intensity_values
  let default_colors := options.default_colors.getD [0, 0, 0, 1]
  let destination :=
    options.destination.getD (List.replicate (values.length * 4) (some 0))
  let color_map_colors :=
    match filterColorCb with
    | some cb => cb color_map.colors
    | none => color_map.colors
  match color_map_colors with
  | none => none
  | some table =>
    let color_map_length : ℚ := (table.length : ℚ) / 4
    let scale := options.scale.getD color_map.scale
    let clamp := options.clamp.getD color_map.clamp
    let flip := options.flip.getD color_map.flip
    let brightness := (options.brightness.getD color_map.brightness) * scale
    let contrast := (options.contrast.getD color_map.contrast) * scale
    let default_color_offset := if default_colors.length = 4 then 0 else 1
    some (values.enum.foldl
      (mapColorsStep table default_colors default_color_offset contrast brightness
        scale options.colorOptions color_map_length vmin vmax clamp flip)
      destination)

/-- Caller-visible effects of one mapColors call.  The source rebinds
its local intensity_values to the fresh array produced by
Array.prototype.map (line 162), so the caller array is never written;
the loop assigns only into destination, and no statement of mapColors
assigns to color_map.colors or to the scalar fields of the color map.
This record exposes those caller-visible post-states next to the
returned buffer. -/
structure MapColorsEffects where
  result : Option (List (Option ℚ))
  intensity_after : List ℚ
  colors_after : Option (List (Option ℚ))
  clamp_after : Bool
  flip_after : Bool
  scale_after : ℚ
  contrast_after : ℚ
  brightness_after : ℚ

/-- A mapColors call together with the state of the caller-owned
intensity array and of the color map after the call returns. -/
def mapColorsRun (color_map : ColorMap) (intensity_values : List ℚ)
    (options : MapOptions)
    (filterColorCb : Option (Option (List (Option ℚ)) → Option (List (Option ℚ)))) :
    MapColorsEffects :=
  { result := mapColors color_map intensity_values options filterColorCb
    intensity_after := intensity_values
    colors_after := color_map.colors
    clamp_after := color_map.clamp
    flip_after := color_map.flip
    scale_after := color_map.scale
    contrast_after := color_map.contrast
    brightness_after := color_map.brightness }

/-! ### colorFromValue -/

/-- Options bag of colorFromValue.  The hex flag selects a string
rendering of the same channel values; only the array rendering is
modelled (the hex branch is pure output formatting). -/
structure CFVOptions where
  hex : Option Bool := none
  min : Option ℚ := none
  max : Option ℚ := none
  scale : Option ℚ := none
  brightness : Option ℚ := none
  contrast : Option ℚ := none

/-- The index resolution performed by colorFromValue: getColorMapIndex
with increment length / (max - min) (no discrete-label override) and
the clamp and flip stored on the color map (colorFromValue reads no
clamp or flip option). -/
def colorFromValueIndex (color_map : ColorMap) (vmin vmax value : ℚ) : ℚ :=
  let color_map_length : ℚ := ((color_map.colors.getD []).length : ℚ) / 4
  getColorMapIndex value vmin vmax (color_map_length / (vmax - vmin))
    color_map.clamp color_map.flip color_map_length

/-- color_map.colorFromValue (array form): resolve the table offset,
slice four channels (default black when out of range), clamp the
contrast-and-brightness-adjusted RGB channels to [0, 1], then scale all
four channels. -/
def colorFromValue (color_map : ColorMap) (value : ℚ) (options : CFVOptions) :
    List (Option ℚ) :=
  let vmin := options.min.getD 0
  let vmax := options.max.getD 255
  let scale := options.scale.getD color_map.scale
  let brightness := options.brightness.getD color_map.brightness
  let contrast := options.contrast.getD color_map.contrast
  let color_map_index := colorFromValueIndex color_map vmin vmax value
  let color : List (Option ℚ) :=
    if 0 ≤ color_map_index then
      ((color_map.colors.getD []).drop (⌊color_map_index⌋).toNat).take 4
    else [some 0, some 0, some 0, some 1]
  let c0 := jmax (some 0) (jmin (jadd (jmul (some contrast) (color.getD 0 none))
    (some brightness)) (some 1))
  let c1 := jmax (some 0) (jmin (jadd (jmul (some contrast) (color.getD 1 none))
    (some brightness)) (some 1))
  let c2 := jmax (some 0) (jmin (jadd (jmul (some contrast) (color.getD 2 none))
    (some brightness)) (some 1))
  [jmul c0 (some scale), jmul c1 (some scale), jmul c2 (some scale),
    jmul (color.getD 3 none) (some scale)]

/-! ### blendImages (overlayaligned compositor) -/

/-- An ImageData-like image: dimensions, optional compositing z-index,
and a flat byte buffer (Uint8ClampedArray contents). -/
structure JsImage where
  width : ℕ
  height : ℕ
  display_zindex : Option ℤ
  data : List ℕ
deriving DecidableEq

/-- The default image value used for out-of-bounds list reads. -/
def defaultImage : JsImage := ⟨0, 0, none, []⟩

instance : Inhabited JsImage := ⟨defaultImage⟩

/-- Sort key of the blend sort: display_zindex with falsy defaulted
to 0. -/
def zkey (img : JsImage) : ℤ := img.display_zindex.getD 0

/-- Stable insertion of an image before the first strictly-greater key,
after equal keys already inserted from earlier positions. -/
def insertImage (a : JsImage) : List JsImage → List JsImage
  | [] => [a]
  | b :: bs => if zkey a ≤ zkey b then a :: b :: bs else b :: insertImage a bs

/-- The ascending stable sort by display_zindex performed by
Array.prototype.sort with the numeric comparator of blendImages. -/
def sortImages (images : List JsImage) : List JsImage :=
  images.foldr insertImage []

/-- The body of the innermost blend loop for image i at target column x
and row y.  The state is the target byte buffer and the per-image data
cursors, both as functions from indices.  The base image (i = 0) mixes
with factor 0 on the accumulated target; later images mix with factor
1 - opacity.  A source pixel whose three color channels are all zero
writes no color channel; alpha is forced to 255 and the cursor advances
whenever the target position lies inside the image. -/
def blendStepImage (w : ℕ) (y x : ℕ) (images : List JsImage)
    (opacitys : List ℚ) (st : (ℕ → ℕ) × (ℕ → ℕ)) (i : ℕ) :
    (ℕ → ℕ) × (ℕ → ℕ) :=
  let image := images.getD i defaultImage
  let opacity : ℚ := if i = 0 then 0 else 1 - opacitys.getD i 0
  if y < image.height ∧ x < image.width then
    let pixel := (y * w + x) * 4
    let target_data := st.1
    let image_iter := st.2
    let current := image_iter i
    let image_data := fun j => image.data.getD j 0
    let written :=
      if 0 < image_data current ∨ 0 < image_data (current + 1) ∨
          0 < image_data (current + 2) then
        fun j =>
          if j = pixel then
            u8c ((target_data pixel : ℚ) * opacity +
              (image_data current : ℚ) * opacitys.getD i 0)
          else if j = pixel + 1 then
            u8c ((target_data (pixel + 1) : ℚ) * opacity +
              (image_data (current + 1) : ℚ) * opacitys.getD i 0)
          else if j = pixel + 2 then
            u8c ((target_data (pixel + 2) : ℚ) * opacity +
              (image_data (current + 2) : ℚ) * opacitys.getD i 0)
          else target_data j
      else target_data
    (Function.update written (pixel + 3) 255,
      Function.update image_iter i (current + 4))
  else st

/-- One target pixel of the blend: iterate the sorted images in order. -/
def blendPixel (w : ℕ) (images : List JsImage) (opacitys : List ℚ)
    (st : (ℕ → ℕ) × (ℕ → ℕ)) (yx : ℕ × ℕ) : (ℕ → ℕ) × (ℕ → ℕ) :=
  (List.range images.length).foldl (blendStepImage w yx.1 yx.2 images opacitys) st

/-- The row-major pixel traversal of the blend loops: y ascending
outer, x ascending inner. -/
def pixelList (w : ℕ) : ℕ → List (ℕ × ℕ)
  | 0 => []
  | h + 1 => pixelList w h ++ (List.range w).map (fun x => (h, x))

/-- blendImages: a single image is returned unchanged; otherwise the
images are stably sorted ascending by display_zindex and blended into
the target buffer pixel by pixel.  The Float32Array conversion of the
opacity list is modelled as the identity (every opacity used in the
theorems below is exactly representable); an out-of-range opacity read
is modelled as 0. -/
def blendImages (images : List JsImage) (target : JsImage)
    (blend_opacitys : List ℚ) : JsImage :=
  if images.length = 1 then images.getD 0 defaultImage
  else
    let sorted := sortImages images
    let st0 : (ℕ → ℕ) × (ℕ → ℕ) := (fun j => target.data.getD j 0, fun _ => 0)
    let st := (pixelList target.width target.height).foldl
      (blendPixel target.width sorted blend_opacitys) st0
    { target with data := (List.range target.data.length).map st.1 }

/-! ### getSliceImage (overlayaligned) -/

/-- A per-volume slice as consumed by getSliceImage: dimensions may be
undefined, the data is the raw intensity buffer, and display_zindex is
carried from the volume header. -/
structure VVSlice where
  width : Option ℕ
  height : Option ℕ
  data : List ℚ
  display_zindex : Option ℤ

/-- The default slice value used for out-of-bounds list reads. -/
def defaultSlice : VVSlice := ⟨none, none, [], none⟩

/-- The fields of an overlaid volume consumed by getSliceImage.  riskId
is a number whose falsiness (0) disables mask gating, as in the
source. -/
structure VVVolume where
  color_map : Option ColorMap
  datatype : String
  intensity_min : ℚ
  intensity_max : ℚ
  isRiskHeatMap : Bool
  isSafety : Bool
  isAnat : Bool
  isRiskMask : Bool
  riskId : ℚ

/-- The default volume value used for out-of-bounds list reads. -/
def defaultVolume : VVVolume := ⟨none, "", 0, 0, false, false, false, false, 0⟩

/-- getAnatSlice and getRiskMaskSlice: the first slice whose volume at
the same position exists and satisfies the flag. -/
def findSliceBy (slices : List VVSlice) (volumes : List VVVolume)
    (p : VVVolume → Bool) : Option VVSlice :=
  (slices.enum.find? (fun iv =>
    match volumes[iv.1]? with
    | some v => p v
    | none => false)).map (fun iv => iv.2)

/-- The mask gating of getSliceImage: keep a voxel only when riskId is
truthy and the mask voxel at the same position equals it; an
out-of-bounds mask read compares undefined to riskId and zeroes the
voxel. -/
def maskMerge (maskSlice : VVSlice) (riskId : ℚ) (data : List ℚ) : List ℚ :=
  data.enum.map (fun iv =>
    match maskSlice.data[iv.1]? with
    | some maskVal => if riskId ≠ 0 ∧ maskVal = riskId then iv.2 else 0
    | none => 0)

/-- Math.round: floor after adding one half. -/
def jround (q : ℚ) : ℤ := ⌊q + 1 / 2⌋

/-- Truncate or zero-pad a byte list to an exact buffer length. -/
def padTo (n : ℕ) (l : List ℕ) : List ℕ :=
  l.take n ++ List.replicate (n - l.length) 0

/-- Modelled from the spec: VolumeViewer.utils.nearestNeighbor is not
among the provided sources (only its call site in getSliceImage is).
Per spec section 4.4 it resamples the source RGBA buffer to the target
size by nearest neighbor with block size 4, one block per pixel. -/
def nearestNeighbor (source : List ℕ) (sw sh tw th : ℕ) : List ℕ :=
  (pixelList tw th).foldr (fun yx acc =>
    let sx := yx.2 * sw / tw
    let sy := yx.1 * sh / th
    let base := (sy * sw + sx) * 4
    source.getD base 0 :: source.getD (base + 1) 0 ::
      source.getD (base + 2) 0 :: source.getD (base + 3) 0 :: acc) []

/-- The per-slice image construction of getSliceImage once the volume
has a color map: an rgb8 volume copies its bytes directly (the
bit-level Float32-to-byte buffer reinterpretation is modelled as a
value-level byte copy; no theorem below exercises this branch), any
other volume has its data mask-gated when it is a risk heat map and
then mapped through the volume color map into a fresh zero byte buffer;
the result is resampled to the target size and carries the slice
z-index.  A mapColors result of undefined (possible only for a color
map whose colors are undefined) leaves the fresh buffer zeroed, exactly
as the in-place call in the source leaves the ImageData untouched. -/
def buildSliceImage (volume : VVVolume) (color_map : ColorMap) (slice : VVSlice)
    (anatSlice riskMaskSlice : Option VVSlice) (contrast brightness : Option ℚ)
    (target_width target_height : ℕ) : JsImage :=
  let w := slice.width.getD 0
  let h := slice.height.getD 0
  let source_data : List ℕ :=
    if volume.datatype = "rgb8" then
      padTo (w * h * 4) (slice.data.map (fun q => u8c q))
    else
      let mergedData :=
        if volume.isSafety then
          if volume.isRiskHeatMap then
            match anatSlice with
            | some a => maskMerge a volume.riskId slice.data
            | none => slice.data
          else slice.data
        else if volume.isRiskHeatMap then
          match riskMaskSlice with
          | some m => maskMerge m volume.riskId slice.data
          | none => slice.data
        else slice.data
      let destination := List.replicate (w * h * 4) ((some 0 : Option ℚ))
      match mapColors color_map mergedData
        { min := some volume.intensity_min
          max := some volume.intensity_max
          contrast := contrast
          brightness := brightness
          destination := some destination } none with
      | some dest => dest.map u8cOpt
      | none => destination.map u8cOpt
  { width := target_width
    height := target_height
    display_zindex := slice.display_zindex
    data := nearestNeighbor source_data w h target_width target_height }

/-- The slices.forEach loop of getSliceImage: a slice without both
dimensions is skipped; a volume without a color map throws (the thrown
message aborts the whole call, discarding images already built); any
other slice contributes one resampled image in order. -/
def getSliceImageLoop (volumes : List VVVolume)
    (anatSlice riskMaskSlice : Option VVSlice) (contrast brightness : Option ℚ)
    (tw th : ℕ) : List VVSlice → ℕ → Except String (List JsImage)
  | [], _ => .ok []
  | slice :: rest, i =>
    if slice.width = none ∨ slice.height = none then
      getSliceImageLoop volumes anatSlice riskMaskSlice contrast brightness
        tw th rest (i + 1)
    else
      match (volumes.getD i defaultVolume).color_map with
      | none => .error "No color map set for this volume. Cannot render slice."
      | some color_map =>
        let image := buildSliceImage (volumes.getD i defaultVolume) color_map
          slice anatSlice riskMaskSlice contrast brightness tw th
        match getSliceImageLoop volumes anatSlice riskMaskSlice contrast
          brightness tw th rest (i + 1) with
        | .error e => .error e
        | .ok images => .ok (image :: images)

/-- overlay_volume.getSliceImage: target size from the first slice
scaled by zoom (zoom falsy defaults to 1), locate the risk mask and
anatomy slices, build the per-volume images, and blend them into a
fresh zeroed target with the per-volume opacities. -/
def getSliceImage (volumes : List VVVolume) (opacitys : List ℚ)
    (slices : List VVSlice) (zoom : Option ℚ) (contrast brightness : Option ℚ) :
    Except String JsImage :=
  let z := jsOr zoom 1
  let max_width := (jround (((slices.headD defaultSlice).width.getD 0 : ℚ) * z)).toNat
  let max_height := (jround (((slices.headD defaultSlice).height.getD 0 : ℚ) * z)).toNat
  let riskMaskSlice := findSliceBy slices volumes (fun v => v.isRiskMask)
  let anatSlice := findSliceBy slices volumes (fun v => v.isAnat)
  match getSliceImageLoop volumes anatSlice riskMaskSlice contrast brightness
    max_width max_height slices 0 with
  | .error e => .error e
  | .ok images =>
    .ok (blendImages images
      ⟨max_width, max_height, none, List.replicate (max_width * max_height * 4) 0⟩
      opacitys)

/-! ### General lemmas about index resolution -/

/-- Mirror identity for the clamped floor at the heart of the flip rule,
valid away from interior lattice points. -/
lemma floor_min_mirror (Lz : ℤ) (x : ℚ) (hL : 1 ≤ Lz) (hx0 : 0 ≤ x)
    (hxL : x ≤ (Lz : ℚ))
    (hnl : ∀ k : ℤ, 1 ≤ k → k ≤ Lz - 1 → x ≠ (k : ℚ)) :
    Lz - 1 - ⌊min x ((Lz : ℚ) - 1)⌋ = ⌊min ((Lz : ℚ) - x) ((Lz : ℚ) - 1)⌋ := by
  have hL1 : (0 : ℚ) ≤ (Lz : ℚ) - 1 := by
    have : (1 : ℚ) ≤ (Lz : ℚ) := by exact_mod_cast hL
    linarith
  by_cases hB : (Lz : ℚ) - 1 < x
  · have h1 : min x ((Lz : ℚ) - 1) = (Lz : ℚ) - 1 := min_eq_right hB.le
    have h2 : ((Lz : ℚ) - 1) = ((Lz - 1 : ℤ) : ℚ) := by push_cast; ring
    have h3 : (0 : ℚ) ≤ min ((Lz : ℚ) - x) ((Lz : ℚ) - 1) :=
      le_min (by linarith) hL1
    have h4 : min ((Lz : ℚ) - x) ((Lz : ℚ) - 1) < 1 :=
      lt_of_le_of_lt (min_le_left _ _) (by linarith)
    have h5 : ⌊min ((Lz : ℚ) - x) ((Lz : ℚ) - 1)⌋ = 0 :=
      Int.floor_eq_zero_iff.mpr ⟨h3, h4⟩
    rw [h1, h5, h2, Int.floor_intCast]
    ring
  · push_neg at hB
    have hmin : min x ((Lz : ℚ) - 1) = x := min_eq_left hB
    rw [hmin]
    by_cases hx1 : x < 1
    · have hfx : ⌊x⌋ = 0 := Int.floor_eq_zero_iff.mpr ⟨hx0, hx1⟩
      have hright : min ((Lz : ℚ) - x) ((Lz : ℚ) - 1) = (Lz : ℚ) - 1 :=
        min_eq_right (by linarith)
      have h2 : ((Lz : ℚ) - 1) = ((Lz - 1 : ℤ) : ℚ) := by push_cast; ring
      rw [hfx, hright, h2, Int.floor_intCast]
      ring
    · push_neg at hx1
      have hne : (⌊x⌋ : ℚ) < x := by
        rcases lt_or_eq_of_le (Int.floor_le x) with h | h
        · exact h
        · exfalso
          apply hnl ⌊x⌋
          · exact Int.le_floor.mpr (by exact_mod_cast hx1)
          · have h3 : ⌊x⌋ ≤ ⌊(Lz : ℚ) - 1⌋ := Int.floor_mono hB
            have h2 : ((Lz : ℚ) - 1) = ((Lz - 1 : ℤ) : ℚ) := by push_cast; ring
            rwa [h2, Int.floor_intCast] at h3
          · exact h.symm
      have hmin2 : min ((Lz : ℚ) - x) ((Lz : ℚ) - 1) = (Lz : ℚ) - x :=
        min_eq_left (by linarith)
      rw [hmin2]
      have hfloor : ⌊(Lz : ℚ) - x⌋ = Lz - 1 - ⌊x⌋ := by
        rw [Int.floor_eq_iff]
        constructor
        · push_cast
          have := Int.lt_floor_add_one x
          linarith
        · push_cast
          linarith
      rw [hfloor]

/-- C2, amended.  For a table of length L at least 1 and a window
vmin < vmax with the canonical increment L / (vmax - vmin), resolving a
value inside the window with flip on agrees with resolving the mirrored
value vmax + vmin - value with flip off, for every value whose scaled
offset (value - vmin) * increment is not an integer between 1 and
L - 1.  (At those lattice points the two sides differ by one entry; see
the counterexample.) -/
theorem getColorMapIndex_flip_symmetry (L : ℕ) (vmin vmax value increment : ℚ)
    (clamp : Bool) (hL : 1 ≤ L) (hlt : vmin < vmax) (hv1 : vmin ≤ value)
    (hv2 : value ≤ vmax) (hinc : increment = (L : ℚ) / (vmax - vmin))
    (hnl : ∀ k : ℤ, 1 ≤ k → k ≤ (L : ℤ) - 1 →
      (value - vmin) * increment ≠ (k : ℚ)) :
    getColorMapIndex value vmin vmax increment clamp true (L : ℚ) =
      getColorMapIndex (vmax + vmin - value) vmin vmax increment clamp false (L : ℚ) := by
  have hr : (0 : ℚ) < vmax - vmin := by linarith
  have hincpos : 0 ≤ increment := by
    rw [hinc]
    exact div_nonneg (Nat.cast_nonneg L) hr.le
  have hx0 : 0 ≤ (value - vmin) * increment := mul_nonneg (by linarith) hincpos
  have hsum : (value - vmin) * increment + (vmax - value) * increment = (L : ℚ) := by
    rw [hinc]
    field_simp
    ring
  have hy0 : 0 ≤ (vmax - value) * increment := mul_nonneg (by linarith) hincpos
  have hxL : (value - vmin) * increment ≤ (L : ℚ) := by linarith
  have hL1 : (0 : ℚ) ≤ (L : ℚ) - 1 := by
    have : (1 : ℚ) ≤ (L : ℚ) := by exact_mod_cast hL
    linarith
  rw [getColorMapIndex, getColorMapIndex, if_neg, if_neg]
  rotate_left
  · rintro ⟨h, -⟩
    rcases h with h | h <;> linarith
  · rintro ⟨h, -⟩
    rcases h with h | h <;> linarith
  · simp only [if_true, if_false, Bool.false_eq_true, ite_true, ite_false]
    have harg : (vmax + vmin - value - vmin) * increment =
        (L : ℚ) - (value - vmin) * increment := by
      have h1 : (vmax + vmin - value - vmin) * increment =
          (vmax - value) * increment := by ring
      linarith
    rw [harg]
    have hmax1 : max 0 (min ((value - vmin) * increment) ((L : ℚ) - 1)) =
        min ((value - vmin) * increment) ((L : ℚ) - 1) :=
      max_eq_right (le_min hx0 hL1)
    have hmax2 : max 0 (min ((L : ℚ) - (value - vmin) * increment) ((L : ℚ) - 1)) =
        min ((L : ℚ) - (value - vmin) * increment) ((L : ℚ) - 1) :=
      max_eq_right (le_min (by linarith) hL1)
    rw [hmax1, hmax2]
    have hm := floor_min_mirror (L : ℤ) ((value - vmin) * increment)
      (by exact_mod_cast hL) hx0 (by push_cast; exact hxL)
      (fun k h1 h2 heq => hnl k h1 h2 heq)
    have hcast : ((L : ℚ) - 1 - (⌊min ((value - vmin) * increment) ((L : ℚ) - 1)⌋ : ℚ)) =
        (⌊min ((L : ℚ) - (value - vmin) * increment) ((L : ℚ) - 1)⌋ : ℚ) := by
      push_cast at hm ⊢
      push_cast [← hm]
      ring
    rw [hcast]

/-- C3.  With the canonical increment, a value outside the window
resolves to the sentinel -1 when clamping is off; with clamping on, a
value below the window resolves to entry 0 and a value above it to
entry L - 1 (channel offset (L - 1) * 4), mirrored by flip. -/
theorem getColorMapIndex_out_of_range (L : ℕ) (vmin vmax value : ℚ) (flip : Bool)
    (hL : 1 ≤ L) (hlt : vmin < vmax) (hout : value < vmin ∨ vmax < value) :
    getColorMapIndex value vmin vmax ((L : ℚ) / (vmax - vmin)) false flip (L : ℚ) = -1 ∧
    (value < vmin →
      getColorMapIndex value vmin vmax ((L : ℚ) / (vmax - vmin)) true flip (L : ℚ) =
        if flip then ((L : ℚ) - 1) * 4 else 0) ∧
    (vmax < value →
      getColorMapIndex value vmin vmax ((L : ℚ) / (vmax - vmin)) true flip (L : ℚ) =
        if flip then 0 else ((L : ℚ) - 1) * 4) := by
  have hr : (0 : ℚ) < vmax - vmin := by linarith
  have hincpos : 0 < (L : ℚ) / (vmax - vmin) := by
    apply div_pos _ hr
    exact_mod_cast Nat.lt_of_lt_of_le Nat.zero_lt_one hL
  have hL1 : (0 : ℚ) ≤ (L : ℚ) - 1 := by
    have : (1 : ℚ) ≤ (L : ℚ) := by exact_mod_cast hL
    linarith
  have hLcast : ((L : ℚ) - 1) = ((L - 1 : ℤ) : ℚ) := by push_cast; ring
  refine ⟨?_, ?_, ?_⟩
  · rw [getColorMapIndex, if_pos ⟨hout, by simp⟩]
  · intro hv
    rw [getColorMapIndex, if_neg (by rintro ⟨-, h⟩; simp at h)]
    have hneg : (value - vmin) * ((L : ℚ) / (vmax - vmin)) < 0 :=
      mul_neg_of_neg_of_pos (by linarith) hincpos
    have hmin : min ((value - vmin) * ((L : ℚ) / (vmax - vmin))) ((L : ℚ) - 1) =
        (value - vmin) * ((L : ℚ) / (vmax - vmin)) :=
      min_eq_left (by linarith)
    have hmax : max 0 ((value - vmin) * ((L : ℚ) / (vmax - vmin))) = 0 :=
      max_eq_left hneg.le
    simp only [hmin, hmax, Int.floor_zero]
    cases flip <;> simp
  · intro hv
    rw [getColorMapIndex, if_neg (by rintro ⟨-, h⟩; simp at h)]
    have hbig : (L : ℚ) < (value - vmin) * ((L : ℚ) / (vmax - vmin)) := by
      have h1 : (vmax - vmin) * ((L : ℚ) / (vmax - vmin)) <
          (value - vmin) * ((L : ℚ) / (vmax - vmin)) := by
        apply mul_lt_mul_of_pos_right _ hincpos
        linarith
      have h2 : (vmax - vmin) * ((L : ℚ) / (vmax - vmin)) = (L : ℚ) := by
        field_simp
      linarith
    have hmin : min ((value - vmin) * ((L : ℚ) / (vmax - vmin))) ((L : ℚ) - 1) =
        (L : ℚ) - 1 :=
      min_eq_right (by linarith)
    have hmax : max 0 ((L : ℚ) - 1) = (L : ℚ) - 1 := max_eq_right hL1
    simp only [hmin, hmax]
    simp only [hLcast, Int.floor_intCast]
    cases flip <;> simp

/-! ### Claim theorems: index resolution (C2, C3) -/

/-- C2, counterexample.  The flip symmetry fails as a universal
statement: with a 2-entry table on the window [0, 2] (canonical
increment 1) at the in-range value 1, flip on resolves to channel
offset 0 while the mirrored value 2 + 0 - 1 with flip off resolves to
channel offset 4. -/
theorem getColorMapIndex_flip_counterexample :
    getColorMapIndex 1 0 2 ((2 : ℚ) / (2 - 0)) false true 2 ≠
      getColorMapIndex (2 + 0 - 1) 0 2 ((2 : ℚ) / (2 - 0)) false false 2 := by
  norm_num [getColorMapIndex]

/-- C2, witness.  The amended flip symmetry applied at the concrete
instance L = 5, window [0, 4], value 5/2 (scaled offset 25/8, not an
integer). -/
theorem getColorMapIndex_flip_symmetry_witness :
    getColorMapIndex (5 / 2) 0 4 ((5 : ℚ) / (4 - 0)) false true 5 =
      getColorMapIndex (4 + 0 - 5 / 2) 0 4 ((5 : ℚ) / (4 - 0)) false false 5 := by
  have h := getColorMapIndex_flip_symmetry 5 0 4 (5 / 2) ((5 : ℚ) / (4 - 0)) false
    (by norm_num) (by norm_num) (by norm_num) (by norm_num) (by norm_num)
    (by
      intro k h1 h2 heq
      have h3 : (25 : ℚ) = 8 * (k : ℚ) := by
        field_simp at heq
        linarith
      have h4 : (25 : ℤ) = 8 * k := by exact_mod_cast h3
      omega)
  simpa using h

/-- C3, witness.  The out-of-range rules applied at L = 5, window
[0, 4], value -1: sentinel without clamp, entry 0 with clamp. -/
theorem getColorMapIndex_out_of_range_witness :
    getColorMapIndex (-1) 0 4 ((5 : ℚ) / (4 - 0)) false false 5 = -1 ∧
    getColorMapIndex (-1) 0 4 ((5 : ℚ) / (4 - 0)) true false 5 = 0 := by
  have h := getColorMapIndex_out_of_range 5 0 4 (-1) false (by norm_num) (by norm_num)
    (Or.inl (by norm_num))
  refine ⟨by simpa using h.1, ?_⟩
  have h2 := h.2.1 (by norm_num)
  simpa using h2

/-! ### Claim theorems: mapColors preprocessing (C6) -/

/-- C6.  The preprocessing mapColors applies to its intensity array
before any index resolution: position by position, a value strictly
above the effective max and at most the effective maxSpectrum becomes
max - 0.0001, and every other value is passed through unchanged.
mapColors invokes exactly this map with its effective max and with
maxSpectrum defaulted to 4 through jsOr. -/
theorem mapColors_maxSpectrum_clamp (vmax maxSpectrum : ℚ) (vals : List ℚ) (i : ℕ)
    (hi : i < vals.length) :
    (mapColorsPreprocess vmax maxSpectrum vals).getD i 0 =
      if vmax < vals.getD i 0 ∧ vals.getD i 0 ≤ maxSpectrum then vmax - 1 / 10000
      else vals.getD i 0 := by
  simp [mapColorsPreprocess, List.getD_eq_getElem?_getD, List.getElem?_map,
    List.getElem?_eq_getElem hi]

/-- C6, witness: the value 5/2 under max 2 and maxSpectrum 4 becomes
2 - 0.0001. -/
theorem mapColors_maxSpectrum_clamp_witness :
    (mapColorsPreprocess 2 4 [5 / 2]).getD 0 0 = 2 - 1 / 10000 := by
  have h := mapColors_maxSpectrum_clamp 2 4 [5 / 2] 0 (by norm_num)
  rw [h]
  norm_num

/-! ### Claim theorems: concrete parse and mapping scenarios (C7, C8) -/

/-- The five-line dense color map of the concrete scenario. -/
def cm7 : ColorMap := createColorMap (some "0 0 0\n1 0 0\n0 1 0\n0 0 1\n1 1 1") {}

/-- The parsed flat table of the concrete scenario. -/
def table7 : List (Option ℚ) :=
  [some 0, some 0, some 0, some 1,
   some 1, some 0, some 0, some 1,
   some 0, some 1, some 0, some 1,
   some 0, some 0, some 1, some 1,
   some 1, some 1, some 1, some 1]

/-- Evaluated colors of the concrete five-line color map. -/
lemma cm7_colors : cm7.colors = some table7 := by
  have h : (createColorMapFold "0 0 0\n1 0 0\n0 1 0\n0 0 1\n1 1 1".toList).1 =
      [some (0, 0), some (0, 0), some (0, 0), some (1, 0),
       some (1, 0), some (0, 0), some (0, 0), some (1, 0),
       some (0, 0), some (1, 0), some (0, 0), some (1, 0),
       some (0, 0), some (0, 0), some (1, 0), some (1, 0),
       some (1, 0), some (1, 0), some (1, 0), some (1, 0)] := by decide
  show (createColorMap (some "0 0 0\n1 0 0\n0 1 0\n0 0 1\n1 1 1") {}).colors =
    some table7
  simp only [createColorMap, createColorMapColors]
  rw [if_neg (by decide), h]
  norm_num [ratOfFix, table7]

/-- C7.  The five dense RGB lines parse to the expected 20-entry flat
table with alpha defaulted to 1; mapping the single intensity 5/2 with
window [0, 4], scale 1, clamp off, flip off resolves increment 5/4 and
channel offset 3 * 4, so the output pixel is the blue entry
[0, 0, 1, 1]. -/
theorem createColorMap_concrete :
    cm7.colors = some table7 ∧
    mapColorsIncrement 5 0 4 = 5 / 4 ∧
    getColorMapIndex (5 / 2) 0 4 (5 / 4) false false 5 = 3 * 4 ∧
    mapColors cm7 [5 / 2]
      { min := some 0, max := some 4, scale := some 1, clamp := some false,
        flip := some false } none = some [some 0, some 0, some 1, some 1] := by
  refine ⟨cm7_colors, by norm_num [mapColorsIncrement],
    by norm_num [getColorMapIndex], ?_⟩
  rw [mapColors, cm7_colors]
  norm_num [mapColorsPreprocess, jsOr, mapColorsStep, mapColorsIndex,
    mapColorsIncrement, getColorMapIndex, jsIndex, jadd, jmul, writeRGBA,
    List.enum_cons, table7, cm7, createColorMap, jsOrB, Int.toNat_ofNat,
    List.getD, List.set]
  simp only [show Int.toNat 12 = 12 from by simp, show Int.toNat 13 = 13 from by simp,
    show Int.toNat 14 = 14 from by simp, show Int.toNat 15 = 15 from by simp]
  norm_num

/-- C8.  The single sparse line 3 1 0 0 1 places [1, 0, 0, 1] at flat
offset 12 leaving offsets 0 through 11 as holes, the continuation
offset after it is 16 so a following dense line lands at 16 through 19,
and a line with fewer than 3 fields is skipped without effect. -/
theorem createColorMap_sparse :
    createColorMapColors "3 1 0 0 1".toList =
      [none, none, none, none, none, none, none, none, none, none, none, none,
       some 1, some 0, some 0, some 1] ∧
    (createColorMapFold "3 1 0 0 1".toList).2 = 16 ∧
    createColorMapColors "3 1 0 0 1\n1 0 1".toList =
      [none, none, none, none, none, none, none, none, none, none, none, none,
       some 1, some 0, some 0, some 1, some 1, some 0, some 1, some 1] ∧
    createColorMapColors "ab\n3 1 0 0 1".toList =
      [none, none, none, none, none, none, none, none, none, none, none, none,
       some 1, some 0, some 0, some 1] := by
  have h1 : (createColorMapFold "3 1 0 0 1".toList).1 =
      [none, none, none, none, none, none, none, none, none, none, none, none,
       some (1, 0), some (0, 0), some (0, 0), some (1, 0)] := by decide
  have h2 : (createColorMapFold "3 1 0 0 1\n1 0 1".toList).1 =
      [none, none, none, none, none, none, none, none, none, none, none, none,
       some (1, 0), some (0, 0), some (0, 0), some (1, 0),
       some (1, 0), some (0, 0), some (1, 0), some (1, 0)] := by decide
  have h3 : (createColorMapFold "ab\n3 1 0 0 1".toList).1 =
      [none, none, none, none, none, none, none, none, none, none, none, none,
       some (1, 0), some (0, 0), some (0, 0), some (1, 0)] := by decide
  refine ⟨?_, by decide, ?_, ?_⟩
  · rw [createColorMapColors, h1]
    norm_num [ratOfFix]
  · rw [createColorMapColors, h2]
    norm_num [ratOfFix]
  · rw [createColorMapColors, h3]
    norm_num [ratOfFix]

/-! ### Claim theorems: empty or falsy table (C4) -/

/-- C4, counterexample.  An active table that is empty but present (the
filter callback returns an empty array, which is truthy in JavaScript)
does not make mapColors return undefined: the guard only tests
falsiness, so a destination buffer is still returned. -/
theorem mapColors_empty_table_counterexample :
    mapColors (createColorMap (some "1 0 0") {}) [0] {} (some (fun _ => some [])) ≠
      none := by
  rw [mapColors]
  simp

/-- C4, amended.  mapColors returns undefined exactly when the active
color table, the filter callback applied to the colors when a callback
is given and the colors themselves otherwise, is falsy (undefined); an
empty-but-present table still returns a destination buffer. -/
theorem mapColors_undefined_iff (color_map : ColorMap) (vals : List ℚ)
    (options : MapOptions)
    (filterColorCb : Option (Option (List (Option ℚ)) → Option (List (Option ℚ)))) :
    mapColors color_map vals options filterColorCb = none ↔
      (match filterColorCb with
        | some cb => cb color_map.colors
        | none => color_map.colors) = none := by
  rw [mapColors.eq_def]
  rcases hcb : (match filterColorCb with
    | some cb => cb color_map.colors
    | none => color_map.colors) with _ | l
  · simp [hcb]
  · simp [hcb]

/-- C4, witness: the amended equivalence at a concrete call without a
filter callback. -/
theorem mapColors_undefined_iff_witness :
    (mapColors (createColorMap (some "1 0 0") {}) [0] {} none = none) ↔
      ((createColorMap (some "1 0 0") {}).colors = none) :=
  mapColors_undefined_iff (createColorMap (some "1 0 0") {}) [0] {} none

/-! ### Claim theorems: colorFromValue versus mapColors resolution (C9) -/

/-- C9, counterexample.  With the five-entry concrete table, window
[0, 17] and value 1, colorFromValue resolves channel offset 0 while
mapColors resolves channel offset 4: mapColors overrides the increment
to 1 for the discrete window while colorFromValue keeps
length / (max - min). -/
theorem colorFromValue_increment_counterexample :
    colorFromValueIndex cm7 0 17 1 = 0 ∧
    mapColorsIndex (((cm7.colors.getD []).length : ℚ) / 4) 0 17 cm7.clamp cm7.flip 1 =
      4 := by
  have hlen : ((cm7.colors.getD []).length : ℚ) / 4 = 5 := by
    rw [cm7_colors]
    norm_num [table7]
  have hclamp : cm7.clamp = true := by
    show (createColorMap (some "0 0 0\n1 0 0\n0 1 0\n0 0 1\n1 1 1") {}).clamp = true
    norm_num [createColorMap]
  have hflip : cm7.flip = false := by
    show (createColorMap (some "0 0 0\n1 0 0\n0 1 0\n0 0 1\n1 1 1") {}).flip = false
    norm_num [createColorMap, jsOrB]
  constructor
  · rw [colorFromValueIndex]
    rw [show ((cm7.colors.getD []).length : ℚ) / 4 = 5 from hlen, hclamp, hflip]
    norm_num [getColorMapIndex]
  · rw [hlen, hclamp, hflip]
    norm_num [mapColorsIndex, mapColorsIncrement, getColorMapIndex]

/-- C9, amended.  Away from the discrete special case min = 0 and max
17 or 18, the index resolution of mapColors (with the color map's own
effective clamp, flip and table) coincides with that of colorFromValue;
inside the special case mapColors uses increment 1 while colorFromValue
uses length / (max - min), and the two can differ. -/
theorem index_resolution_agrees (color_map : ColorMap) (vmin vmax value : ℚ)
    (hns : ¬(vmin = 0 ∧ (vmax = 17 ∨ vmax = 18))) :
    mapColorsIndex (((color_map.colors.getD []).length : ℚ) / 4) vmin vmax
      color_map.clamp color_map.flip value =
    colorFromValueIndex color_map vmin vmax value := by
  rw [mapColorsIndex, colorFromValueIndex, mapColorsIncrement, if_neg hns]

/-- C9, witness: agreement at the concrete table, window [0, 4] and
value 5/2. -/
theorem index_resolution_agrees_witness :
    mapColorsIndex (((cm7.colors.getD []).length : ℚ) / 4) 0 4 cm7.clamp cm7.flip
      (5 / 2) = colorFromValueIndex cm7 0 4 (5 / 2) :=
  index_resolution_agrees cm7 0 4 (5 / 2) (by norm_num)

/-! ### Claim theorems: mapColors frame (C10) -/

/-- C10.  A mapColors call that returns a destination buffer leaves the
caller intensity array and every caller-visible color map field (the
colors array and the clamp, flip, scale, contrast and brightness
scalars) unchanged: the source preprocesses into a fresh array produced
by Array.prototype.map and writes only into the destination. -/
theorem mapColors_frame (color_map : ColorMap) (vals : List ℚ) (options : MapOptions)
    (filterColorCb : Option (Option (List (Option ℚ)) → Option (List (Option ℚ))))
    (d : List (Option ℚ))
    (h : (mapColorsRun color_map vals options filterColorCb).result = some d) :
    (mapColorsRun color_map vals options filterColorCb).intensity_after = vals ∧
    (mapColorsRun color_map vals options filterColorCb).colors_after =
      color_map.colors ∧
    (mapColorsRun color_map vals options filterColorCb).clamp_after =
      color_map.clamp ∧
    (mapColorsRun color_map vals options filterColorCb).flip_after =
      color_map.flip ∧
    (mapColorsRun color_map vals options filterColorCb).scale_after =
      color_map.scale ∧
    (mapColorsRun color_map vals options filterColorCb).contrast_after =
      color_map.contrast ∧
    (mapColorsRun color_map vals options filterColorCb).brightness_after =
      color_map.brightness :=
  ⟨rfl, rfl, rfl, rfl, rfl, rfl, rfl⟩

/-- C10, witness: a concrete returning call (empty table, empty input,
result the empty buffer) leaves the caller data untouched. -/
theorem mapColors_frame_witness :
    (mapColorsRun (createColorMap (some "x") {}) [] {} none).intensity_after =
      ([] : List ℚ) ∧
    (mapColorsRun (createColorMap (some "x") {}) [] {} none).colors_after =
      (createColorMap (some "x") {}).colors := by
  have hx : (createColorMap (some "x") {}).colors = some [] := by
    simp only [createColorMap, createColorMapColors]
    rw [if_neg (by decide), show (createColorMapFold "x".toList).1 = [] from by decide]
    rfl
  have hres : (mapColorsRun (createColorMap (some "x") {}) [] {} none).result =
      some [] := by
    rw [mapColorsRun]
    simp only [mapColors, hx]
    simp [mapColorsPreprocess]
  have h := mapColors_frame (createColorMap (some "x") {}) [] {} none [] hres
  exact ⟨h.1, h.2.1⟩

/-! ### Claim theorems: missing color map (C5) -/

/-- The forEach loop of getSliceImage throws the missing-color-map
message as soon as any slice with defined dimensions belongs to a
volume without a color map: earlier slices either skip, throw the same
message, or contribute an image, and a later error aborts the whole
loop. -/
lemma getSliceImageLoop_error (volumes : List VVVolume)
    (anatSlice riskMaskSlice : Option VVSlice) (contrast brightness : Option ℚ)
    (tw th : ℕ) :
    ∀ (sl : List VVSlice) (i0 j : ℕ), j < sl.length →
    (sl.getD j defaultSlice).width ≠ none →
    (sl.getD j defaultSlice).height ≠ none →
    (volumes.getD (i0 + j) defaultVolume).color_map = none →
    getSliceImageLoop volumes anatSlice riskMaskSlice contrast brightness tw th
      sl i0 = .error "No color map set for this volume. Cannot render slice." := by
  intro sl
  induction sl with
  | nil =>
    intro i0 j hj
    simp at hj
  | cons s rest ih =>
    intro i0 j hj hw hh hcm
    cases j with
    | zero =>
      simp only [List.getD_cons_zero] at hw hh
      rw [getSliceImageLoop, if_neg (by
        rintro (h | h)
        · exact hw h
        · exact hh h)]
      rw [Nat.add_zero] at hcm
      rw [hcm]
    | succ j' =>
      simp only [List.getD_cons_succ] at hw hh
      have hcm' : (volumes.getD (i0 + 1 + j') defaultVolume).color_map = none := by
        rwa [show i0 + 1 + j' = i0 + (j' + 1) from by omega]
      have hrec := ih (i0 + 1) j' (by simpa using Nat.lt_of_succ_lt_succ hj) hw hh hcm'
      rw [getSliceImageLoop]
      by_cases hskip : s.width = none ∨ s.height = none
      · rw [if_pos hskip]
        exact hrec
      · rw [if_neg hskip]
        rcases hv : (volumes.getD i0 defaultVolume).color_map with _ | cmv
        · rfl
        · simp only [hrec]

/-- C5.  Whenever some slice has both dimensions defined, its volume
needs color mapping (datatype not rgb8), and that volume has no color
map, getSliceImage raises the missing-color-map error instead of
producing an image.  (The source throws before even inspecting the
datatype, so the datatype hypothesis only restricts the statement to
the volumes named by the claim.) -/
theorem getSliceImage_missing_color_map (volumes : List VVVolume)
    (opacitys : List ℚ) (slices : List VVSlice) (zoom : Option ℚ)
    (contrast brightness : Option ℚ) (i : ℕ) (hi : i < slices.length)
    (hw : (slices.getD i defaultSlice).width ≠ none)
    (hh : (slices.getD i defaultSlice).height ≠ none)
    (hdt : (volumes.getD i defaultVolume).datatype ≠ "rgb8")
    (hcm : (volumes.getD i defaultVolume).color_map = none) :
    getSliceImage volumes opacitys slices zoom contrast brightness =
      .error "No color map set for this volume. Cannot render slice." := by
  rw [getSliceImage]
  have h := getSliceImageLoop_error volumes
    (findSliceBy slices volumes (fun v => v.isAnat))
    (findSliceBy slices volumes (fun v => v.isRiskMask)) contrast brightness
    (jround (((slices.headD defaultSlice).width.getD 0 : ℚ) * jsOr zoom 1)).toNat
    (jround (((slices.headD defaultSlice).height.getD 0 : ℚ) * jsOr zoom 1)).toNat
    slices 0 i hi hw hh (by simpa using hcm)
  rw [h]

/-- C5, witness: a single one-voxel slice on a volume without a color
map makes the whole call error. -/
theorem getSliceImage_missing_color_map_witness :
    getSliceImage [⟨none, "uint8", 0, 255, false, false, false, false, 0⟩] [1]
      [⟨some 1, some 1, [0], none⟩] none none none =
      .error "No color map set for this volume. Cannot render slice." :=
  getSliceImage_missing_color_map _ _ _ _ _ _ 0 (by norm_num) (by simp)
    (by simp) (by simp) rfl

end BrainBrowser

namespace BrainBrowser

/-- Invariant carried through the blend loop when both images have the
target dimensions: after k pixels both data cursors sit at 4k, the
region from 4k on is still zero, and once the tracked pixel kstar has
been passed its four channels hold their final values (the first sorted
image colors, full alpha). -/
def BlendInv (A B : JsImage) (kstar k : ℕ) (st : (ℕ → ℕ) × (ℕ → ℕ)) : Prop :=
  st.2 0 = 4 * k ∧ st.2 1 = 4 * k ∧ (∀ j, 4 * k ≤ j → st.1 j = 0) ∧
  (kstar < k →
    st.1 (4 * kstar) = A.data.getD (4 * kstar) 0 ∧
    st.1 (4 * kstar + 1) = A.data.getD (4 * kstar + 1) 0 ∧
    st.1 (4 * kstar + 2) = A.data.getD (4 * kstar + 2) 0 ∧
    st.1 (4 * kstar + 3) = 255)

/-- Storing a byte-ranged natural through ToUint8Clamp is the
identity. -/
lemma u8c_byte (n : ℕ) (h : n ≤ 255) : u8c (n : ℚ) = n := by
  rw [u8c]
  by_cases h0 : (n : ℚ) ≤ 0
  · have hn : n = 0 := by exact_mod_cast le_antisymm h0 (Nat.cast_nonneg n)
    rw [if_pos h0, hn]
  · rw [if_neg h0]
    by_cases h255 : (255 : ℚ) ≤ (n : ℚ)
    · have hn : n = 255 := le_antisymm h (by exact_mod_cast h255)
      rw [if_pos h255, hn]
    · rw [if_neg h255, roundTiesEven]
      rw [Int.floor_natCast]
      norm_num

/-- Invariant propagation along a fold over List.range. -/
lemma foldl_range_inv {σ : Type _} (P : ℕ → σ → Prop) :
    ∀ (n : ℕ) (g : σ → ℕ → σ), (∀ k st, k < n → P k st → P (k + 1) (g st k)) →
    ∀ st, P 0 st → P n ((List.range n).foldl g st) := by
  intro n
  induction n with
  | zero =>
    intro g _ st h
    simpa using h
  | succ m ih =>
    intro g hstep st h0
    rw [List.range_succ, List.foldl_append, List.foldl_cons, List.foldl_nil]
    exact hstep m _ (Nat.lt_succ_self m)
      (ih g (fun k st hk h => hstep k st (hk.trans (Nat.lt_succ_self m)) h) st h0)

/-- Invariant propagation along the row-major pixel traversal. -/
lemma foldl_pixelList_inv {σ : Type _} (P : ℕ → σ → Prop) (w : ℕ)
    (f : σ → ℕ × ℕ → σ) :
    ∀ (h : ℕ),
    (∀ y x st, y < h → x < w → P (y * w + x) st → P (y * w + x + 1) (f st (y, x))) →
    ∀ st, P 0 st → P (h * w) ((pixelList w h).foldl f st) := by
  intro h
  induction h with
  | zero =>
    intro _ st h0
    simpa [pixelList] using h0
  | succ m ih =>
    intro hstep st h0
    rw [pixelList, List.foldl_append, List.foldl_map]
    have hmid : P (m * w) ((pixelList w m).foldl f st) :=
      ih (fun y x st hy hx hp => hstep y x st (hy.trans (Nat.lt_succ_self m)) hx hp)
        st h0
    have hrow := foldl_range_inv (σ := σ) (fun x st => P (m * w + x) st) w
      (fun s x => f s (m, x))
      (fun x st hx hp => by
        have hh := hstep m x st (Nat.lt_succ_self m) hx hp
        simpa [Nat.add_assoc] using hh)
      _ (by simpa using hmid)
    have heq : m * w + w = (m + 1) * w := by ring
    rw [← heq]
    exact hrow

/-- Explicit form of the blend body for the base image (index 0) of a
two-image list when the target position lies inside it. -/
lemma blendStep_fst (A B : JsImage) (tw y x : ℕ) (ops : List ℚ)
    (st : (ℕ → ℕ) × (ℕ → ℕ)) (hin : y < A.height ∧ x < A.width) :
    blendStepImage tw y x [A, B] ops st 0 =
      (Function.update
        (if 0 < A.data.getD (st.2 0) 0 ∨ 0 < A.data.getD (st.2 0 + 1) 0 ∨
            0 < A.data.getD (st.2 0 + 2) 0 then
          fun j =>
            if j = (y * tw + x) * 4 then
              u8c ((st.1 ((y * tw + x) * 4) : ℚ) * 0 +
                (A.data.getD (st.2 0) 0 : ℚ) * ops.getD 0 0)
            else if j = (y * tw + x) * 4 + 1 then
              u8c ((st.1 ((y * tw + x) * 4 + 1) : ℚ) * 0 +
                (A.data.getD (st.2 0 + 1) 0 : ℚ) * ops.getD 0 0)
            else if j = (y * tw + x) * 4 + 2 then
              u8c ((st.1 ((y * tw + x) * 4 + 2) : ℚ) * 0 +
                (A.data.getD (st.2 0 + 2) 0 : ℚ) * ops.getD 0 0)
            else st.1 j
        else st.1) ((y * tw + x) * 4 + 3) 255,
        Function.update st.2 0 (st.2 0 + 4)) := by
  rw [blendStepImage]
  simp only [List.getD_cons_zero]
  rw [if_pos hin]
  simp

/-- Explicit form of the blend body for the second image (index 1) of
a two-image list when the target position lies inside it. -/
lemma blendStep_snd (A B : JsImage) (tw y x : ℕ) (ops : List ℚ)
    (st : (ℕ → ℕ) × (ℕ → ℕ)) (hin : y < B.height ∧ x < B.width) :
    blendStepImage tw y x [A, B] ops st 1 =
      (Function.update
        (if 0 < B.data.getD (st.2 1) 0 ∨ 0 < B.data.getD (st.2 1 + 1) 0 ∨
            0 < B.data.getD (st.2 1 + 2) 0 then
          fun j =>
            if j = (y * tw + x) * 4 then
              u8c ((st.1 ((y * tw + x) * 4) : ℚ) * (1 - ops.getD 1 0) +
                (B.data.getD (st.2 1) 0 : ℚ) * ops.getD 1 0)
            else if j = (y * tw + x) * 4 + 1 then
              u8c ((st.1 ((y * tw + x) * 4 + 1) : ℚ) * (1 - ops.getD 1 0) +
                (B.data.getD (st.2 1 + 1) 0 : ℚ) * ops.getD 1 0)
            else if j = (y * tw + x) * 4 + 2 then
              u8c ((st.1 ((y * tw + x) * 4 + 2) : ℚ) * (1 - ops.getD 1 0) +
                (B.data.getD (st.2 1 + 2) 0 : ℚ) * ops.getD 1 0)
            else st.1 j
        else st.1) ((y * tw + x) * 4 + 3) 255,
        Function.update st.2 1 (st.2 1 + 4)) := by
  rw [blendStepImage]
  simp only [List.getD_cons_succ, List.getD_cons_zero]
  rw [if_pos hin]
  simp

/-- One pixel of the two-image blend preserves the blend invariant. -/
lemma blendPixel_step (A B : JsImage) (tw th : ℕ) (ops : List ℚ)
    (hAw : A.width = tw) (hAh : A.height = th) (hBw : B.width = tw)
    (hBh : B.height = th) (hops0 : ops.getD 0 0 = 1) (kstar : ℕ)
    (hblack0 : B.data.getD (4 * kstar) 0 = 0)
    (hblack1 : B.data.getD (4 * kstar + 1) 0 = 0)
    (hblack2 : B.data.getD (4 * kstar + 2) 0 = 0)
    (hbyte0 : A.data.getD (4 * kstar) 0 ≤ 255)
    (hbyte1 : A.data.getD (4 * kstar + 1) 0 ≤ 255)
    (hbyte2 : A.data.getD (4 * kstar + 2) 0 ≤ 255)
    (y x : ℕ) (st : (ℕ → ℕ) × (ℕ → ℕ)) (hy : y < th) (hx : x < tw)
    (hP : BlendInv A B kstar (y * tw + x) st) :
    BlendInv A B kstar (y * tw + x + 1) (blendPixel tw [A, B] ops st (y, x)) := by
  obtain ⟨hit0, hit1, hzero, hdone⟩ := hP
  rw [blendPixel]
  rw [show List.range ([A, B] : List JsImage).length = [0, 1] from rfl]
  rw [List.foldl_cons, List.foldl_cons, List.foldl_nil]
  rw [blendStep_fst A B tw y x ops st ⟨hAh ▸ hy, hAw ▸ hx⟩]
  rw [blendStep_snd A B tw y x ops _ ⟨hBh ▸ hy, hBw ▸ hx⟩]
  set k := y * tw + x with hk
  dsimp only
  simp only [Function.update_noteq (show (1 : ℕ) ≠ 0 from by norm_num),
    Function.update_same, hit0, hit1]
  refine ⟨?_, ?_, ?_, ?_⟩
  · dsimp only
    rw [Function.update_noteq (show (0 : ℕ) ≠ 1 from by norm_num),
      Function.update_same]
    omega
  · dsimp only
    rw [Function.update_same]
    omega
  · intro j hj
    dsimp only
    rw [Function.update_noteq (show j ≠ k * 4 + 3 from by omega)]
    by_cases hCB : 0 < B.data.getD (4 * k) 0 ∨ 0 < B.data.getD (4 * k + 1) 0 ∨
        0 < B.data.getD (4 * k + 2) 0
    · rw [if_pos hCB]
      rw [if_neg (show ¬j = k * 4 from by omega),
        if_neg (show ¬j = k * 4 + 1 from by omega),
        if_neg (show ¬j = k * 4 + 2 from by omega),
        Function.update_noteq (show j ≠ k * 4 + 3 from by omega)]
      by_cases hCA : 0 < A.data.getD (4 * k) 0 ∨ 0 < A.data.getD (4 * k + 1) 0 ∨
          0 < A.data.getD (4 * k + 2) 0
      · rw [if_pos hCA]
        rw [if_neg (show ¬j = k * 4 from by omega),
          if_neg (show ¬j = k * 4 + 1 from by omega),
          if_neg (show ¬j = k * 4 + 2 from by omega)]
        exact hzero j (by omega)
      · rw [if_neg hCA]
        exact hzero j (by omega)
    · rw [if_neg hCB]
      rw [Function.update_noteq (show j ≠ k * 4 + 3 from by omega)]
      by_cases hCA : 0 < A.data.getD (4 * k) 0 ∨ 0 < A.data.getD (4 * k + 1) 0 ∨
          0 < A.data.getD (4 * k + 2) 0
      · rw [if_pos hCA]
        rw [if_neg (show ¬j = k * 4 from by omega),
          if_neg (show ¬j = k * 4 + 1 from by omega),
          if_neg (show ¬j = k * 4 + 2 from by omega)]
        exact hzero j (by omega)
      · rw [if_neg hCA]
        exact hzero j (by omega)
  · intro hlt
    dsimp only
    by_cases hke : kstar = k
    · subst hke
      have hCB : ¬(0 < B.data.getD (4 * k) 0 ∨ 0 < B.data.getD (4 * k + 1) 0 ∨
          0 < B.data.getD (4 * k + 2) 0) := by
        rw [hblack0, hblack1, hblack2]
        norm_num
      refine ⟨?_, ?_, ?_, ?_⟩
      · rw [Function.update_noteq (show 4 * k ≠ k * 4 + 3 from by omega),
          if_neg hCB,
          Function.update_noteq (show 4 * k ≠ k * 4 + 3 from by omega)]
        by_cases hCA : 0 < A.data.getD (4 * k) 0 ∨ 0 < A.data.getD (4 * k + 1) 0 ∨
            0 < A.data.getD (4 * k + 2) 0
        · rw [if_pos hCA, if_pos (show 4 * k = k * 4 from by ring)]
          rw [hzero (k * 4) (by omega), hops0]
          norm_num
          exact u8c_byte _ (by simpa [List.getD_eq_getElem?_getD] using hbyte0)
        · rw [if_neg hCA]
          rw [hzero (4 * k) (by omega)]
          push_neg at hCA
          omega
      · rw [Function.update_noteq (show 4 * k + 1 ≠ k * 4 + 3 from by omega),
          if_neg hCB,
          Function.update_noteq (show 4 * k + 1 ≠ k * 4 + 3 from by omega)]
        by_cases hCA : 0 < A.data.getD (4 * k) 0 ∨ 0 < A.data.getD (4 * k + 1) 0 ∨
            0 < A.data.getD (4 * k + 2) 0
        · rw [if_pos hCA, if_neg (show ¬4 * k + 1 = k * 4 from by omega),
            if_pos (show 4 * k + 1 = k * 4 + 1 from by ring_nf)]
          rw [hzero (k * 4 + 1) (by omega), hops0]
          norm_num
          exact u8c_byte _ (by simpa [List.getD_eq_getElem?_getD] using hbyte1)
        · rw [if_neg hCA]
          rw [hzero (4 * k + 1) (by omega)]
          push_neg at hCA
          omega
      · rw [Function.update_noteq (show 4 * k + 2 ≠ k * 4 + 3 from by omega),
          if_neg hCB,
          Function.update_noteq (show 4 * k + 2 ≠ k * 4 + 3 from by omega)]
        by_cases hCA : 0 < A.data.getD (4 * k) 0 ∨ 0 < A.data.getD (4 * k + 1) 0 ∨
            0 < A.data.getD (4 * k + 2) 0
        · rw [if_pos hCA, if_neg (show ¬4 * k + 2 = k * 4 from by omega),
            if_neg (show ¬4 * k + 2 = k * 4 + 1 from by omega),
            if_pos (show 4 * k + 2 = k * 4 + 2 from by ring_nf)]
          rw [hzero (k * 4 + 2) (by omega), hops0]
          norm_num
          exact u8c_byte _ (by simpa [List.getD_eq_getElem?_getD] using hbyte2)
        · rw [if_neg hCA]
          rw [hzero (4 * k + 2) (by omega)]
          push_neg at hCA
          omega
      · rw [show 4 * k + 3 = k * 4 + 3 from by ring_nf, Function.update_same]
    · have hlt2 : kstar < k := by omega
      obtain ⟨hd0, hd1, hd2, hd3⟩ := hdone hlt2
      refine ⟨?_, ?_, ?_, ?_⟩
      · rw [Function.update_noteq (show 4 * kstar ≠ k * 4 + 3 from by omega)]
        by_cases hCB : 0 < B.data.getD (4 * k) 0 ∨ 0 < B.data.getD (4 * k + 1) 0 ∨
            0 < B.data.getD (4 * k + 2) 0
        · rw [if_pos hCB, if_neg (show ¬4 * kstar = k * 4 from by omega),
            if_neg (show ¬4 * kstar = k * 4 + 1 from by omega),
            if_neg (show ¬4 * kstar = k * 4 + 2 from by omega),
            Function.update_noteq (show 4 * kstar ≠ k * 4 + 3 from by omega)]
          by_cases hCA : 0 < A.data.getD (4 * k) 0 ∨ 0 < A.data.getD (4 * k + 1) 0 ∨
              0 < A.data.getD (4 * k + 2) 0
          · rw [if_pos hCA, if_neg (show ¬4 * kstar = k * 4 from by omega),
              if_neg (show ¬4 * kstar = k * 4 + 1 from by omega),
              if_neg (show ¬4 * kstar = k * 4 + 2 from by omega)]
            exact hd0
          · rw [if_neg hCA]
            exact hd0
        · rw [if_neg hCB,
            Function.update_noteq (show 4 * kstar ≠ k * 4 + 3 from by omega)]
          by_cases hCA : 0 < A.data.getD (4 * k) 0 ∨ 0 < A.data.getD (4 * k + 1) 0 ∨
              0 < A.data.getD (4 * k + 2) 0
          · rw [if_pos hCA, if_neg (show ¬4 * kstar = k * 4 from by omega),
              if_neg (show ¬4 * kstar = k * 4 + 1 from by omega),
              if_neg (show ¬4 * kstar = k * 4 + 2 from by omega)]
            exact hd0
          · rw [if_neg hCA]
            exact hd0
      · rw [Function.update_noteq (show 4 * kstar + 1 ≠ k * 4 + 3 from by omega)]
        by_cases hCB : 0 < B.data.getD (4 * k) 0 ∨ 0 < B.data.getD (4 * k + 1) 0 ∨
            0 < B.data.getD (4 * k + 2) 0
        · rw [if_pos hCB, if_neg (show ¬4 * kstar + 1 = k * 4 from by omega),
            if_neg (show ¬4 * kstar + 1 = k * 4 + 1 from by omega),
            if_neg (show ¬4 * kstar + 1 = k * 4 + 2 from by omega),
            Function.update_noteq (show 4 * kstar + 1 ≠ k * 4 + 3 from by omega)]
          by_cases hCA : 0 < A.data.getD (4 * k) 0 ∨ 0 < A.data.getD (4 * k + 1) 0 ∨
              0 < A.data.getD (4 * k + 2) 0
          · rw [if_pos hCA, if_neg (show ¬4 * kstar + 1 = k * 4 from by omega),
              if_neg (show ¬4 * kstar + 1 = k * 4 + 1 from by omega),
              if_neg (show ¬4 * kstar + 1 = k * 4 + 2 from by omega)]
            exact hd1
          · rw [if_neg hCA]
            exact hd1
        · rw [if_neg hCB,
            Function.update_noteq (show 4 * kstar + 1 ≠ k * 4 + 3 from by omega)]
          by_cases hCA : 0 < A.data.getD (4 * k) 0 ∨ 0 < A.data.getD (4 * k + 1) 0 ∨
              0 < A.data.getD (4 * k + 2) 0
          · rw [if_pos hCA, if_neg (show ¬4 * kstar + 1 = k * 4 from by omega),
              if_neg (show ¬4 * kstar + 1 = k * 4 + 1 from by omega),
              if_neg (show ¬4 * kstar + 1 = k * 4 + 2 from by omega)]
            exact hd1
          · rw [if_neg hCA]
            exact hd1
      · rw [Function.update_noteq (show 4 * kstar + 2 ≠ k * 4 + 3 from by omega)]
        by_cases hCB : 0 < B.data.getD (4 * k) 0 ∨ 0 < B.data.getD (4 * k + 1) 0 ∨
            0 < B.data.getD (4 * k + 2) 0
        · rw [if_pos hCB, if_neg (show ¬4 * kstar + 2 = k * 4 from by omega),
            if_neg (show ¬4 * kstar + 2 = k * 4 + 1 from by omega),
            if_neg (show ¬4 * kstar + 2 = k * 4 + 2 from by omega),
            Function.update_noteq (show 4 * kstar + 2 ≠ k * 4 + 3 from by omega)]
          by_cases hCA : 0 < A.data.getD (4 * k) 0 ∨ 0 < A.data.getD (4 * k + 1) 0 ∨
              0 < A.data.getD (4 * k + 2) 0
          · rw [if_pos hCA, if_neg (show ¬4 * kstar + 2 = k * 4 from by omega),
              if_neg (show ¬4 * kstar + 2 = k * 4 + 1 from by omega),
              if_neg (show ¬4 * kstar + 2 = k * 4 + 2 from by omega)]
            exact hd2
          · rw [if_neg hCA]
            exact hd2
        · rw [if_neg hCB,
            Function.update_noteq (show 4 * kstar + 2 ≠ k * 4 + 3 from by omega)]
          by_cases hCA : 0 < A.data.getD (4 * k) 0 ∨ 0 < A.data.getD (4 * k + 1) 0 ∨
              0 < A.data.getD (4 * k + 2) 0
          · rw [if_pos hCA, if_neg (show ¬4 * kstar + 2 = k * 4 from by omega),
              if_neg (show ¬4 * kstar + 2 = k * 4 + 1 from by omega),
              if_neg (show ¬4 * kstar + 2 = k * 4 + 2 from by omega)]
            exact hd2
          · rw [if_neg hCA]
            exact hd2
      · rw [Function.update_noteq (show 4 * kstar + 3 ≠ k * 4 + 3 from by omega)]
        by_cases hCB : 0 < B.data.getD (4 * k) 0 ∨ 0 < B.data.getD (4 * k + 1) 0 ∨
            0 < B.data.getD (4 * k + 2) 0
        · rw [if_pos hCB, if_neg (show ¬4 * kstar + 3 = k * 4 from by omega),
            if_neg (show ¬4 * kstar + 3 = k * 4 + 1 from by omega),
            if_neg (show ¬4 * kstar + 3 = k * 4 + 2 from by omega),
            Function.update_noteq (show 4 * kstar + 3 ≠ k * 4 + 3 from by omega)]
          by_cases hCA : 0 < A.data.getD (4 * k) 0 ∨ 0 < A.data.getD (4 * k + 1) 0 ∨
              0 < A.data.getD (4 * k + 2) 0
          · rw [if_pos hCA, if_neg (show ¬4 * kstar + 3 = k * 4 from by omega),
              if_neg (show ¬4 * kstar + 3 = k * 4 + 1 from by omega),
              if_neg (show ¬4 * kstar + 3 = k * 4 + 2 from by omega)]
            exact hd3
          · rw [if_neg hCA]
            exact hd3
        · rw [if_neg hCB,
            Function.update_noteq (show 4 * kstar + 3 ≠ k * 4 + 3 from by omega)]
          by_cases hCA : 0 < A.data.getD (4 * k) 0 ∨ 0 < A.data.getD (4 * k + 1) 0 ∨
              0 < A.data.getD (4 * k + 2) 0
          · rw [if_pos hCA, if_neg (show ¬4 * kstar + 3 = k * 4 from by omega),
              if_neg (show ¬4 * kstar + 3 = k * 4 + 1 from by omega),
              if_neg (show ¬4 * kstar + 3 = k * 4 + 2 from by omega)]
            exact hd3
          · rw [if_neg hCA]
            exact hd3

end BrainBrowser

namespace BrainBrowser

/-- Reading a zero-filled buffer gives zero at every index. -/
lemma getD_replicate_zero (n j : ℕ) : (List.replicate n (0 : ℕ)).getD j 0 = 0 := by
  rw [List.getD_eq_getElem?_getD, List.getElem?_replicate]
  split <;> rfl

/-- Reading the materialized function state at an in-bounds index. -/
lemma getD_range_map (f : ℕ → ℕ) (n i : ℕ) (hi : i < n) :
    ((List.range n).map f).getD i 0 = f i := by
  rw [List.getD_eq_getElem?_getD, List.getElem?_map, List.getElem?_range hi]
  rfl

/-- C1, amended.  For a two-image composite whose images both have the
dimensions of the zero-initialized target, whenever the first blend
opacity is 1 (the default) and the second image after the ascending
stable sort by display_zindex is exactly black at pixel (x, y), the
blended output at that pixel keeps the first sorted image raw RGB
values and has alpha 255.  (Without the opacity-1 hypothesis the claim
fails: the base pass scales the first image by opacitys[0]; see the
counterexample.) -/
theorem blendImages_skip_black (images : List JsImage) (target : JsImage)
    (ops : List ℚ) (A B : JsImage) (x y : ℕ)
    (hlen : images.length = 2)
    (hsort : sortImages images = [A, B])
    (hAw : A.width = target.width) (hAh : A.height = target.height)
    (hBw : B.width = target.width) (hBh : B.height = target.height)
    (htd : target.data = List.replicate (target.width * target.height * 4) 0)
    (hops0 : ops.getD 0 0 = 1)
    (hx : x < target.width) (hy : y < target.height)
    (hblack : ∀ c, c < 3 →
      B.data.getD (4 * (y * target.width + x) + c) 0 = 0)
    (hbyte : ∀ c, c < 3 →
      A.data.getD (4 * (y * target.width + x) + c) 0 ≤ 255) :
    (∀ c, c < 3 →
      (blendImages images target ops).data.getD (4 * (y * target.width + x) + c) 0 =
        A.data.getD (4 * (y * target.width + x) + c) 0) ∧
    (blendImages images target ops).data.getD (4 * (y * target.width + x) + 3) 0 =
      255 := by
  have hb0 : B.data.getD (4 * (y * target.width + x)) 0 = 0 := by
    simpa using hblack 0 (by norm_num)
  have hb1 : B.data.getD (4 * (y * target.width + x) + 1) 0 = 0 :=
    hblack 1 (by norm_num)
  have hb2 : B.data.getD (4 * (y * target.width + x) + 2) 0 = 0 :=
    hblack 2 (by norm_num)
  have ha0 : A.data.getD (4 * (y * target.width + x)) 0 ≤ 255 := by
    simpa using hbyte 0 (by norm_num)
  have ha1 : A.data.getD (4 * (y * target.width + x) + 1) 0 ≤ 255 :=
    hbyte 1 (by norm_num)
  have ha2 : A.data.getD (4 * (y * target.width + x) + 2) 0 ≤ 255 :=
    hbyte 2 (by norm_num)
  have hK : y * target.width + x < target.height * target.width := by
    calc y * target.width + x < y * target.width + target.width := by omega
    _ = (y + 1) * target.width := by ring
    _ ≤ target.height * target.width := Nat.mul_le_mul_right _ hy
  have hfin := foldl_pixelList_inv (BlendInv A B (y * target.width + x))
    target.width (blendPixel target.width [A, B] ops) target.height
    (fun y' x' st hy' hx' hp =>
      blendPixel_step A B target.width target.height ops hAw hAh hBw hBh hops0
        (y * target.width + x) hb0 hb1 hb2 ha0 ha1 ha2 y' x' st hy' hx' hp)
    (fun j => target.data.getD j 0, fun _ => 0)
    (by
      refine ⟨rfl, rfl, ?_, ?_⟩
      · intro j _
        rw [htd]
        exact getD_replicate_zero _ _
      · intro h
        exact absurd h (by omega))
  obtain ⟨-, -, -, hdone⟩ := hfin
  obtain ⟨hv0, hv1, hv2, hv3⟩ := hdone hK
  rw [blendImages, if_neg (by rw [hlen]; norm_num), hsort]
  have hlength : target.data.length = target.width * target.height * 4 := by
    rw [htd, List.length_replicate]
  constructor
  · intro c hc
    interval_cases c
    · dsimp only
      rw [getD_range_map _ _ _ (by rw [hlength, Nat.mul_comm target.width target.height]; omega)]
      simpa using hv0
    · dsimp only
      rw [getD_range_map _ _ _ (by rw [hlength, Nat.mul_comm target.width target.height]; omega)]
      exact hv1
    · dsimp only
      rw [getD_range_map _ _ _ (by rw [hlength, Nat.mul_comm target.width target.height]; omega)]
      exact hv2
  · dsimp only
    rw [getD_range_map _ _ _ (by rw [hlength, Nat.mul_comm target.width target.height]; omega)]
    exact hv3

end BrainBrowser

namespace BrainBrowser

/-- C1, witness.  The amended theorem at a concrete one-pixel
composite: red base pixel 100, black second image, opacities [1, 1]:
the output pixel is (100, 0, 0, 255). -/
theorem blendImages_skip_black_witness :
    (∀ c, c < 3 →
      (blendImages
        [⟨1, 1, none, [100, 0, 0, 255]⟩, ⟨1, 1, none, [0, 0, 0, 255]⟩]
        ⟨1, 1, none, [0, 0, 0, 0]⟩ [1, 1]).data.getD (4 * (0 * 1 + 0) + c) 0 =
        (⟨1, 1, none, [100, 0, 0, 255]⟩ : JsImage).data.getD
          (4 * (0 * 1 + 0) + c) 0) ∧
    (blendImages
      [⟨1, 1, none, [100, 0, 0, 255]⟩, ⟨1, 1, none, [0, 0, 0, 255]⟩]
      ⟨1, 1, none, [0, 0, 0, 0]⟩ [1, 1]).data.getD (4 * (0 * 1 + 0) + 3) 0 =
      255 :=
  blendImages_skip_black _ _ _ ⟨1, 1, none, [100, 0, 0, 255]⟩
    ⟨1, 1, none, [0, 0, 0, 255]⟩ 0 0 (by decide) (by decide) rfl rfl rfl rfl
    (by decide) (by norm_num) (by decide) (by decide) (by decide) (by decide)

/-- C1, counterexample.  The claim as stated fails when the first
blend opacity is not 1: same one-pixel composite with opacities
[1/2, 1], second (sorted) image black at the pixel, yet the output red
channel is 50, not the first image raw value 100. -/
theorem blendImages_skip_black_counterexample :
    sortImages [⟨1, 1, none, [100, 0, 0, 255]⟩, ⟨1, 1, none, [0, 0, 0, 255]⟩] =
      [⟨1, 1, none, [100, 0, 0, 255]⟩, ⟨1, 1, none, [0, 0, 0, 255]⟩] ∧
    (blendImages
      [⟨1, 1, none, [100, 0, 0, 255]⟩, ⟨1, 1, none, [0, 0, 0, 255]⟩]
      ⟨1, 1, none, [0, 0, 0, 0]⟩ [1 / 2, 1]).data.getD 0 0 = 50 ∧
    (⟨1, 1, none, [100, 0, 0, 255]⟩ : JsImage).data.getD 0 0 = 100 := by
  refine ⟨by decide, ?_, by decide⟩
  rw [blendImages]
  norm_num [sortImages, insertImage, zkey, pixelList, blendPixel, blendStepImage,
    List.range_succ, Function.update, u8c, roundTiesEven, getD_range_map]
  decide

end BrainBrowser
